import Mathlib

/-!
Shallow embedding of `src/Spreadsheet.tsx` (irfanzahir/spreadsheet).

The component converts `(rows, columnHeaderTitle)` into a flat list of
positioned cell descriptors for the ReactGrid renderer.  We embed the
pure data transformation: JS runtime values that can appear in a row are
modelled by `JVal`, cell prop records by ordered association lists, the
two cell templates (`TextCell`, `NonEditableCell`) by an inductive, and
the numbered JS idioms (`x || d` on strings/numbers, `String(v || '')`)
by explicit functions.
-/

namespace Spreadsheet

/-- A JS runtime value as it can appear in a data row. -/
inductive JVal where
  | null : JVal
  | undef : JVal
  | str : String → JVal
  | num : Int → JVal
  | bool : Bool → JVal
deriving DecidableEq

/-- JS truthiness of a `JVal` (`null`, `undefined`, `""`, `0`, `false` are falsy). -/
def truthy : JVal → Bool
  | .null => false
  | .undef => false
  | .str s => !s.isEmpty
  | .num n => n != 0
  | .bool b => b

/-- JS `String(v)` on a `JVal`. -/
def jsToString : JVal → String
  | .null => "null"
  | .undef => "undefined"
  | .str s => s
  | .num n => toString n
  | .bool b => if b then "true" else "false"

/-- JS `String(v || '')`: the empty string on falsy values, `String(v)` otherwise. -/
def stringOrEmpty (v : JVal) : String :=
  if truthy v then jsToString v else ""

/-- JS `x || d` where `x : string | undefined` (the empty string is falsy). -/
def jsOrStr (x : Option String) (d : String) : String :=
  match x with
  | some s => if s = "" then d else s
  | none => d

/-- JS `x || d` where `x : number | undefined` (`0` is falsy). -/
def jsOrNum (x : Option Int) (d : Int) : Int :=
  match x with
  | some n => if n = 0 then d else n
  | none => d

/-- A value stored in a cell's `props` record. -/
inductive PVal where
  | str : String → PVal
  | bool : Bool → PVal
  | num : Int → PVal
  /-- a `{backgroundColor: c}` style object -/
  | style : String → PVal
deriving DecidableEq

/-- A JS props record: ordered association list of field name to value. -/
def Props := List (String × PVal)
deriving DecidableEq

/-- JS object spread `{...base, ...custom}`: base keys in order with custom
values overriding field-by-field, then the custom-only keys. -/
def mergeProps (base custom : Props) : Props :=
  (base.map fun p =>
    match List.lookup p.1 custom with
    | some v => (p.1, v)
    | none => p) ++
  custom.filter fun q => List.lookup q.1 base = none

/-- The two rendering templates used by the component. -/
inductive CellTemplate where
  | TextCell : CellTemplate
  | NonEditableCell : CellTemplate
deriving DecidableEq

/-- The `Cell` descriptor handed to ReactGrid. -/
structure Cell where
  rowIndex : Nat
  colIndex : Int
  Template : CellTemplate
  props : Props
  rowSpan : Option Int := none
  colSpan : Option Int := none
  isFocusable : Option Bool := none
  isSelectable : Option Bool := none
deriving DecidableEq

/-- The `CustomCell` spec a header policy may return. -/
structure CustomCell where
  title : Option String := none
  template : Option CellTemplate := none
  props : Option Props := none
  rowSpan : Option Int := none
  colSpan : Option Int := none
  isFocusable : Option Bool := none
  isSelectable : Option Bool := none
deriving DecidableEq

/-- Structure `HeaderInfo<T>` from the source. -/
structure HeaderInfo where
  key : String
  cell : Option Cell
  title : String
  customCell : Option CustomCell
  colSpan : Option Int := none
deriving DecidableEq

def DISABLED_COLOR : String := "#EEEEEE"

/-- Factory `createTextCell(text, nonEditable = false)`. -/
def createTextCell (text : String) (nonEditable : Bool := false) : Cell :=
  { rowIndex := 0
    colIndex := 0
    Template := .TextCell
    props := [("text", .str text), ("nonEditable", .bool nonEditable)] }

/-- Factory `createHeaderCell(value)`. -/
def createHeaderCell (value : String) : Cell :=
  { rowIndex := 0
    colIndex := 0
    Template := .NonEditableCell
    props := [("value", .str value), ("nonEditable", .bool true),
              ("style", .style DISABLED_COLOR)] }

/-- Factory `createRowNumberCell(value)`. -/
def createRowNumberCell (value : Nat) : Cell :=
  { rowIndex := 0
    colIndex := 0
    Template := .NonEditableCell
    props := [("value", .str (toString value)), ("nonEditable", .bool true),
              ("style", .style DISABLED_COLOR)] }

/-- The well-typed return value of a `columnHeaderTitle` policy:
`string | null | CustomCell`. -/
inductive HeaderResult where
  | hnull : HeaderResult
  | hstr : String → HeaderResult
  | hcustom : CustomCell → HeaderResult
deriving DecidableEq

/-- A header policy `(key, rowIndex, colIndex) => string | null | CustomCell`. -/
def Policy := String → Nat → Nat → HeaderResult

/-- The `HeaderInfo` built from a structured `CustomCell` result
(the `else` branch of `processHeaderInfo`, source lines 157-175). -/
def customHeaderInfo (key : String) (colIdx : Nat) (c : CustomCell) : HeaderInfo :=
  { key := key
    cell := some
      { rowIndex := 0
        colIndex := (colIdx : Int) + 1
        Template := c.template.getD .NonEditableCell
        props := c.props.getD
          [("value", .str (jsOrStr c.title key)), ("nonEditable", .bool true),
           ("style", .style DISABLED_COLOR)]
        rowSpan := c.rowSpan
        colSpan := c.colSpan
        isFocusable := c.isFocusable
        isSelectable := c.isSelectable }
    title := jsOrStr c.title key
    customCell := some c
    colSpan := c.colSpan }

/-- Source `processHeaderInfo(key, colIdx, columnHeaderTitle)` over well-typed
policy results (source lines 130-176); `none` stands for the TS `null`. -/
def processHeaderInfo (key : String) (colIdx : Nat) (policy : Option Policy) :
    Option HeaderInfo :=
  match policy with
  | none =>
    some { key := key, cell := some (createHeaderCell key), title := key,
           customCell := none }
  | some f =>
    match f key 0 (colIdx + 1) with
    | .hnull => none
    | .hstr s =>
      some { key := key, cell := some (createHeaderCell s), title := s,
             customCell := none }
    | .hcustom c => some (customHeaderInfo key colIdx c)

/-- A data row: a JS object as an ordered association list (keys are unique
in an actual JS object). -/
def Row := List (String × JVal)
deriving DecidableEq

/-- Source `getObjectKeys(obj)`: the keys in order, the `id` field injected by
`useFieldArray` filtered out (source lines 125-128). -/
def getObjectKeys (obj : Row) : List String :=
  (obj.map Prod.fst).filter fun key => key ≠ "id"

/-- Property access `item[key]`, `undefined` when the key is absent. -/
def getValue (item : Row) (key : String) : JVal :=
  (List.lookup key item).getD JVal.undef

/-- The header-resolution stage of `getCells` (source lines 250-252):
`allKeys.map((key, colIdx) => processHeaderInfo(...)).filter(info => info !== null)`. -/
def headerInfos (allKeys : List String) (policy : Option Policy) : List HeaderInfo :=
  (allKeys.enum.map fun p => processHeaderInfo p.2 p.1 policy).filterMap id

/-- The span a header entry reserves: `info.colSpan || 1`. -/
def infoSpan (info : HeaderInfo) : Int :=
  jsOrNum info.colSpan 1

/-- The column-position fold of `getCells` (source lines 269-287), pairing
each surviving header entry with the `currentColIndex` at which it is
emitted; the running index starts at `cur` and grows by `info.colSpan || 1`. -/
def columnPlanGo (cur : Int) : List HeaderInfo → List (HeaderInfo × Int)
  | [] => []
  | info :: rest => (info, cur) :: columnPlanGo (cur + infoSpan info) rest

/-- The column plan: positions start at 1 (column 0 is the row-number column). -/
def columnPlan (infos : List HeaderInfo) : List (HeaderInfo × Int) :=
  columnPlanGo 1 infos

/-- JS `Map.set(key, value)`: replace in place when the key is present,
append otherwise. -/
def mapSet (m : List (String × Int)) (key : String) (value : Int) :
    List (String × Int) :=
  if m.any fun p => p.1 = key then
    m.map fun p => if p.1 = key then (key, value) else p
  else
    m ++ [(key, value)]

/-- The `columnPositions` map built by the fold in `getCells`. -/
def positionsMap (infos : List HeaderInfo) : List (String × Int) :=
  (columnPlan infos).foldl (fun m ip => mapSet m ip.1.key ip.2) []

/-- Source `createDataCell(value, rowIdx, colIdx, customCell)` (lines 178-212). -/
def createDataCell (value : JVal) (rowIdx : Nat) (colIdx : Int)
    (customCell : Option CustomCell) : Cell :=
  let baseCell := createTextCell (stringOrEmpty value)
  match customCell with
  | some c =>
    { rowIndex := rowIdx
      colIndex := colIdx
      Template := c.template.getD .TextCell
      props := mergeProps baseCell.props (c.props.getD [])
      rowSpan := c.rowSpan
      colSpan := c.colSpan
      isFocusable := c.isFocusable
      isSelectable := c.isSelectable }
  | none => { baseCell with rowIndex := rowIdx, colIndex := colIdx }

/-- The header cell emitted for a planned column (source lines 277-283):
`{...(info.cell || createHeaderCell(String(info.key))), rowIndex: 0,
colIndex: currentColIndex, Template: info.cell?.Template || NonEditableCell}`. -/
def plannedHeaderCell (info : HeaderInfo) (pos : Int) : Cell :=
  { info.cell.getD (createHeaderCell info.key) with
    rowIndex := 0
    colIndex := pos
    Template :=
      match info.cell with
      | some c => c.Template
      | none => .NonEditableCell }

/-- Source `getCells()` (lines 242-303). -/
def getCells (data : List Row) (policy : Option Policy) : List Cell :=
  match data with
  | [] => []
  | firstItem :: _ =>
    let allKeys := getObjectKeys firstItem
    let headerInfo := headerInfos allKeys policy
    let rowNumberHeaderCell : Cell :=
      { createHeaderCell "#" with rowIndex := 0, colIndex := 0 }
    let rowNumberCells : List Cell :=
      data.enum.map fun p =>
        { createRowNumberCell (p.1 + 1) with rowIndex := p.1 + 1, colIndex := 0 }
    let plan := columnPlan headerInfo
    let columnPositions := positionsMap headerInfo
    let headerCells : List Cell := plan.map fun ip => plannedHeaderCell ip.1 ip.2
    let dataCells : List Cell :=
      data.enum.flatMap fun ri =>
        headerInfo.map fun info =>
          createDataCell (getValue ri.2 info.key) (ri.1 + 1)
            ((List.lookup info.key columnPositions).getD 0) info.customCell
    rowNumberHeaderCell :: (rowNumberCells ++ headerCells ++ dataCells)

/-- The props the component passes to the `ReactGrid` renderer
(source lines 311-317); these five are the only props supplied, so in
particular no cell-change callback is installed. -/
structure ReactGridProps where
  cells : List Cell
  stickyTopRows : Int
  stickyBottomRows : Int
  stickyLeftColumns : Int
  stickyRightColumns : Int
deriving DecidableEq

/-- What the component renders: the sized container div and the grid props. -/
structure RenderOutput where
  containerHeight : String
  containerWidth : String
  grid : ReactGridProps
deriving DecidableEq

/-- The component's input props; `none` models an omitted prop. -/
structure SpreadsheetProps where
  data : List Row
  columnHeaderTitle : Option Policy := none
  height : Option String := none
  width : Option String := none
  stickyTopRows : Option Int := none
  stickyBottomRows : Option Int := none
  stickyLeftColumns : Option Int := none
  stickyRightColumns : Option Int := none

/-- The render pass of `Spreadsheet` (source lines 214-321): destructuring
defaults applied to omitted props, cells computed by `getCells` over the
live rows (the field array is seeded from `data` when no form is given),
and the five grid props passed through. -/
def spreadsheetRender (p : SpreadsheetProps) : RenderOutput :=
  { containerHeight := p.height.getD "400px"
    containerWidth := p.width.getD "100%"
    grid :=
      { cells := getCells p.data p.columnHeaderTitle
        stickyTopRows := p.stickyTopRows.getD 1
        stickyBottomRows := p.stickyBottomRows.getD 0
        stickyLeftColumns := p.stickyLeftColumns.getD 1
        stickyRightColumns := p.stickyRightColumns.getD 0 } }

/-- A raw JS value a misbehaving header policy can return at runtime:
the well-typed shapes plus `undefined` and non-object primitives
(numbers, booleans, symbols, ...). -/
inductive PolicyRet where
  | rnull : PolicyRet
  | rundef : PolicyRet
  | rstr : String → PolicyRet
  | robj : CustomCell → PolicyRet
  | rprim : PolicyRet
deriving DecidableEq

/-- The runtime classification of `processHeaderInfo` (source lines 144-176)
over raw JS results.  `result === null` hides the column; a string gives a
default header; any other value reaches `result.template`: on `undefined`
that property access throws a TypeError, while on a non-object primitive
every property access yields `undefined`, i.e. the value behaves like an
empty `CustomCell` spec. -/
def processHeaderResultJS (key : String) (colIdx : Nat) (ret : PolicyRet) :
    Except String (Option HeaderInfo) :=
  match ret with
  | .rnull => .ok none
  | .rstr s =>
    .ok (some { key := key, cell := some (createHeaderCell s), title := s,
                customCell := none })
  | .rundef => .error "TypeError"
  | .robj c => .ok (some (customHeaderInfo key colIdx c))
  | .rprim => .ok (some (customHeaderInfo key colIdx {}))

/-- A header policy as it exists at runtime (its returns unconstrained). -/
def RTPolicy := String → Nat → Nat → PolicyRet

/-- The classification of `processHeaderInfo` run against a runtime policy: the policy is
consulted at `(key, 0, colIdx + 1)` and its raw result classified. -/
def processHeaderInfoRT (key : String) (colIdx : Nat) (f : RTPolicy) :
    Except String (Option HeaderInfo) :=
  processHeaderResultJS key colIdx (f key 0 (colIdx + 1))

/-! ### Helper lemmas -/

/-- Total span width a list of header entries reserves. -/
def sumSpans (infos : List HeaderInfo) : Int :=
  (infos.map infoSpan).sum

theorem sumSpans_cons (info : HeaderInfo) (rest : List HeaderInfo) :
    sumSpans (info :: rest) = infoSpan info + sumSpans rest := by
  simp [sumSpans]

theorem columnPlanGo_length (cur : Int) (infos : List HeaderInfo) :
    (columnPlanGo cur infos).length = infos.length := by
  induction infos generalizing cur with
  | nil => rfl
  | cons info rest ih => simp [columnPlanGo, ih]

theorem columnPlanGo_map_fst (cur : Int) (infos : List HeaderInfo) :
    (columnPlanGo cur infos).map Prod.fst = infos := by
  induction infos generalizing cur with
  | nil => rfl
  | cons info rest ih => simp [columnPlanGo, ih]

theorem columnPlanGo_append (cur : Int) (xs ys : List HeaderInfo) :
    columnPlanGo cur (xs ++ ys) =
      columnPlanGo cur xs ++ columnPlanGo (cur + sumSpans xs) ys := by
  induction xs generalizing cur with
  | nil => simp [columnPlanGo, sumSpans]
  | cons info rest ih => simp [columnPlanGo, ih, sumSpans_cons, add_assoc]

theorem columnPlanGo_shift (cur d : Int) (infos : List HeaderInfo) :
    columnPlanGo (cur + d) infos =
      (columnPlanGo cur infos).map fun ip => (ip.1, ip.2 + d) := by
  induction infos generalizing cur with
  | nil => rfl
  | cons info rest ih =>
    simp only [columnPlanGo, List.map_cons]
    refine congrArg _ ?_
    rw [show cur + d + infoSpan info = cur + infoSpan info + d by ring]
    exact ih (cur + infoSpan info)

theorem columnPlanGo_get? (infos : List HeaderInfo) (cur : Int) (m : Nat) :
    (columnPlanGo cur infos).get? m =
      (infos.get? m).map fun info => (info, cur + sumSpans (infos.take m)) := by
  induction infos generalizing cur m with
  | nil => simp [columnPlanGo]
  | cons info rest ih =>
    cases m with
    | zero => simp [columnPlanGo, sumSpans]
    | succ m =>
      simp only [columnPlanGo, List.get?_cons_succ, List.take_succ_cons, sumSpans_cons]
      rw [ih (cur + infoSpan info) m]
      simp [add_assoc]

/-- The header-resolution stage written as a recursion carrying the running
column index; `headerInfos` (the literal `enum`/`map`/`filter` translation)
is proved equal to it below. -/
def headerInfosFrom (policy : Option Policy) : Nat → List String → List HeaderInfo
  | _, [] => []
  | n, key :: ks =>
    match processHeaderInfo key n policy with
    | none => headerInfosFrom policy (n + 1) ks
    | some info => info :: headerInfosFrom policy (n + 1) ks

theorem enumFrom_map_filterMap (policy : Option Policy) :
    ∀ (n : Nat) (ks : List String),
      ((List.enumFrom n ks).map fun p => processHeaderInfo p.2 p.1 policy).filterMap id =
        headerInfosFrom policy n ks := by
  intro n ks
  induction ks generalizing n with
  | nil => rfl
  | cons key ks ih =>
    simp only [List.enumFrom, List.map_cons, List.filterMap_cons, id]
    cases h : processHeaderInfo key n policy with
    | none => simpa [headerInfosFrom, h] using ih (n + 1)
    | some info => simpa [headerInfosFrom, h] using ih (n + 1)

theorem headerInfos_eq_from (keys : List String) (policy : Option Policy) :
    headerInfos keys policy = headerInfosFrom policy 0 keys :=
  enumFrom_map_filterMap policy 0 keys

theorem processHeaderInfo_key (key : String) (colIdx : Nat) (policy : Option Policy)
    (info : HeaderInfo) (h : processHeaderInfo key colIdx policy = some info) :
    info.key = key := by
  cases policy with
  | none =>
    simp only [processHeaderInfo, Option.some.injEq] at h
    rw [← h]
  | some f =>
    simp only [processHeaderInfo] at h
    cases hr : f key 0 (colIdx + 1) with
    | hnull => rw [hr] at h; exact absurd h (by simp)
    | hstr s => rw [hr] at h; simp only [Option.some.injEq] at h; rw [← h]
    | hcustom c =>
      rw [hr] at h; simp only [Option.some.injEq] at h; rw [← h]; rfl

theorem headerInfosFrom_append (policy : Option Policy) (xs ys : List String) :
    ∀ n : Nat, headerInfosFrom policy n (xs ++ ys) =
      headerInfosFrom policy n xs ++ headerInfosFrom policy (n + xs.length) ys := by
  induction xs with
  | nil => intro n; simp [headerInfosFrom]
  | cons key xs ih =>
    intro n
    simp only [List.cons_append, headerInfosFrom, List.length_cons]
    have hn : n + (xs.length + 1) = n + 1 + xs.length := by omega
    cases h : processHeaderInfo key n policy with
    | none =>
      rw [show xs.append ys = xs ++ ys from rfl, ih (n + 1), hn]
    | some info =>
      rw [show xs.append ys = xs ++ ys from rfl, ih (n + 1), hn]
      rfl

theorem headerInfosFrom_keys_sublist (policy : Option Policy) :
    ∀ (n : Nat) (ks : List String),
      ((headerInfosFrom policy n ks).map (fun info => info.key)).Sublist ks := by
  intro n ks
  induction ks generalizing n with
  | nil => simp [headerInfosFrom]
  | cons key ks ih =>
    simp only [headerInfosFrom]
    cases h : processHeaderInfo key n policy with
    | none => exact (ih (n + 1)).cons key
    | some info =>
      simp only [List.map_cons, processHeaderInfo_key key n policy info h]
      exact (ih (n + 1)).cons₂ key

theorem headerInfosFrom_congr (p q : Option Policy) :
    ∀ (n : Nat) (ks : List String),
      (∀ (i : Nat) (k : String), ks.get? i = some k →
        processHeaderInfo k (n + i) p = processHeaderInfo k (n + i) q) →
      headerInfosFrom p n ks = headerInfosFrom q n ks := by
  intro n ks
  induction ks generalizing n with
  | nil => intro _; rfl
  | cons key ks ih =>
    intro h
    have h0 : processHeaderInfo key n p = processHeaderInfo key n q := by
      simpa using h 0 key rfl
    have hrest : headerInfosFrom p (n + 1) ks = headerInfosFrom q (n + 1) ks := by
      refine ih (n + 1) fun i k hk => ?_
      have := h (i + 1) k (by simpa using hk)
      simpa [Nat.add_assoc, Nat.add_comm 1 i] using this
    simp only [headerInfosFrom, h0, hrest]

theorem headerInfosFrom_length_of_total (policy : Option Policy) :
    ∀ (n : Nat) (ks : List String),
      (∀ (i : Nat) (k : String), ks.get? i = some k →
        processHeaderInfo k (n + i) policy ≠ none) →
      (headerInfosFrom policy n ks).length = ks.length := by
  intro n ks
  induction ks generalizing n with
  | nil => intro _; rfl
  | cons key ks ih =>
    intro h
    simp only [headerInfosFrom]
    cases hk : processHeaderInfo key n policy with
    | none => exact absurd hk (by simpa using h 0 key rfl)
    | some info =>
      simp only [List.length_cons]
      rw [ih (n + 1) fun i k hik => by
        have := h (i + 1) k (by simpa using hik)
        simpa [Nat.add_assoc, Nat.add_comm 1 i] using this]

theorem lookup_eq_some_of_nodup (k : String) (v : Int) :
    ∀ l : List (String × Int), (l.map Prod.fst).Nodup → (k, v) ∈ l →
      List.lookup k l = some v := by
  intro l
  induction l with
  | nil => intro _ hm; exact absurd hm (List.not_mem_nil _)
  | cons p rest ih =>
    rcases p with ⟨a, b⟩
    intro hnd hm
    rw [List.map_cons] at hnd
    have hnd2 := List.nodup_cons.mp hnd
    rcases List.mem_cons.mp hm with heq | hrest
    · have hk : k = a := congrArg Prod.fst heq
      have hv : v = b := congrArg Prod.snd heq
      subst hk; subst hv
      simp [List.lookup_cons]
    · have hk : k ∈ rest.map Prod.fst := List.mem_map_of_mem Prod.fst hrest
      have hne : (k == a) = false := by
        apply beq_eq_false_iff_ne.mpr
        intro hka
        exact hnd2.1 (hka ▸ hk)
      simp only [List.lookup_cons, hne]
      exact ih hnd2.2 hrest

theorem lookup_eq_none_of_not_mem (k : String) :
    ∀ l : List (String × Int), k ∉ l.map Prod.fst → List.lookup k l = none := by
  intro l
  induction l with
  | nil => intro _; rfl
  | cons p rest ih =>
    rcases p with ⟨a, b⟩
    intro h
    rw [List.map_cons] at h
    simp only [List.mem_cons, not_or] at h
    have hne : (k == a) = false := beq_eq_false_iff_ne.mpr h.1
    simp only [List.lookup_cons, hne]
    exact ih h.2

theorem mapSet_of_not_mem (m : List (String × Int)) (k : String) (v : Int)
    (h : k ∉ m.map Prod.fst) : mapSet m k v = m ++ [(k, v)] := by
  have hc : (m.any fun p => p.1 = k) = false := by
    rw [List.any_eq_false]
    intro p hp
    simp only [decide_eq_true_eq]
    intro hpk
    exact h (hpk ▸ List.mem_map_of_mem Prod.fst hp)
  unfold mapSet
  rw [hc]
  simp

theorem columnPlan_length (infos : List HeaderInfo) :
    (columnPlan infos).length = infos.length :=
  columnPlanGo_length 1 infos

theorem columnPlan_map_fst (infos : List HeaderInfo) :
    (columnPlan infos).map Prod.fst = infos :=
  columnPlanGo_map_fst 1 infos

theorem columnPlan_keys (infos : List HeaderInfo) :
    ((columnPlan infos).map fun ip => ip.1.key) = infos.map fun info => info.key := by
  rw [show (fun ip : HeaderInfo × Int => ip.1.key) =
        (fun info : HeaderInfo => info.key) ∘ Prod.fst from rfl]
  rw [← List.map_map, columnPlan_map_fst]

theorem foldl_mapSet_eq_append (plan : List (HeaderInfo × Int)) :
    ∀ m : List (String × Int),
      ((plan.map fun ip => ip.1.key).Nodup) →
      (∀ ip ∈ plan, ip.1.key ∉ m.map Prod.fst) →
      plan.foldl (fun acc ip => mapSet acc ip.1.key ip.2) m =
        m ++ plan.map fun ip => (ip.1.key, ip.2) := by
  induction plan with
  | nil => intro m _ _; simp
  | cons ip rest ih =>
    intro m hnd hdisj
    rw [List.map_cons] at hnd
    have hnd2 := List.nodup_cons.mp hnd
    simp only [List.foldl_cons]
    rw [mapSet_of_not_mem m ip.1.key ip.2 (hdisj ip (List.mem_cons_self ip rest))]
    rw [ih (m ++ [(ip.1.key, ip.2)]) hnd2.2]
    · simp
    · intro jq hjq
      simp only [List.map_append, List.mem_append, not_or]
      refine ⟨hdisj jq (List.mem_cons_of_mem ip hjq), ?_⟩
      have hne : jq.1.key ≠ ip.1.key := by
        intro he
        exact hnd2.1 (he ▸ List.mem_map_of_mem (fun q => q.1.key) hjq)
      simpa using hne

theorem positionsMap_eq (infos : List HeaderInfo)
    (hnd : (infos.map fun info => info.key).Nodup) :
    positionsMap infos = (columnPlan infos).map fun ip => (ip.1.key, ip.2) := by
  unfold positionsMap
  rw [foldl_mapSet_eq_append]
  · simp
  · rw [columnPlan_keys]; exact hnd
  · intro ip _ h
    simp at h

theorem plan_keys_eq (infos : List HeaderInfo) :
    ((columnPlan infos).map fun ip => (ip.1.key, ip.2)).map Prod.fst =
      infos.map fun info => info.key := by
  rw [List.map_map]
  rw [show (Prod.fst ∘ fun ip : HeaderInfo × Int => (ip.1.key, ip.2)) =
        fun ip : HeaderInfo × Int => ip.1.key from rfl]
  rw [columnPlan_keys]

/-- With distinct surviving keys, the `columnPositions` map agrees with the
column plan: each planned entry's key looks up to its planned position. -/
theorem lookup_positionsMap (infos : List HeaderInfo) (info : HeaderInfo) (pos : Int)
    (hnd : (infos.map fun i => i.key).Nodup)
    (hm : (info, pos) ∈ columnPlan infos) :
    List.lookup info.key (positionsMap infos) = some pos := by
  rw [positionsMap_eq infos hnd]
  refine lookup_eq_some_of_nodup info.key pos _ ?_ ?_
  · rw [plan_keys_eq]; exact hnd
  · exact List.mem_map_of_mem (fun ip => (ip.1.key, ip.2)) hm

theorem mem_enumFrom_of_get? {α : Type} (l : List α) :
    ∀ (n i : Nat) (x : α), l.get? i = some x → (n + i, x) ∈ l.enumFrom n := by
  induction l with
  | nil => intro n i x h; simp at h
  | cons a l ih =>
    intro n i x h
    cases i with
    | zero =>
      simp only [List.get?_cons_zero, Option.some.injEq] at h
      simp [List.enumFrom, h]
    | succ i =>
      simp only [List.get?_cons_succ] at h
      have := ih (n + 1) i x h
      have harith : n + (i + 1) = n + 1 + i := by omega
      rw [harith]
      exact List.mem_cons_of_mem _ this

theorem mem_enum_of_get? {α : Type} (l : List α) (i : Nat) (x : α)
    (h : l.get? i = some x) : (i, x) ∈ l.enum := by
  have := mem_enumFrom_of_get? l 0 i x h
  simpa using this

theorem length_flatMap_const {α β : Type} (l : List α) (f : α → List β) (K : Nat)
    (h : ∀ a ∈ l, (f a).length = K) : (l.flatMap f).length = l.length * K := by
  induction l with
  | nil => simp
  | cons a l ih =>
    simp only [List.flatMap_cons, List.length_append, List.length_cons]
    rw [h a (List.mem_cons_self a l), ih fun b hb => h b (List.mem_cons_of_mem a hb)]
    ring

/-- Unfolding of `getCells` on a non-empty row list, written out (pure unfolding). -/
theorem getCells_cons (first : Row) (rest : List Row) (policy : Option Policy) :
    getCells (first :: rest) policy =
      { createHeaderCell "#" with rowIndex := 0, colIndex := 0 } ::
      (((first :: rest).enum.map fun p =>
          { createRowNumberCell (p.1 + 1) with rowIndex := p.1 + 1, colIndex := 0 }) ++
       ((columnPlan (headerInfos (getObjectKeys first) policy)).map fun ip =>
          plannedHeaderCell ip.1 ip.2) ++
       ((first :: rest).enum.flatMap fun ri =>
          (headerInfos (getObjectKeys first) policy).map fun info =>
            createDataCell (getValue ri.2 info.key) (ri.1 + 1)
              ((List.lookup info.key
                  (positionsMap (headerInfos (getObjectKeys first) policy))).getD 0)
              info.customCell)) := rfl

/-- Cell count of `getCells` on non-empty data, in terms of the number of
surviving (non-hidden) columns. -/
theorem getCells_length (first : Row) (rest : List Row) (policy : Option Policy) :
    (getCells (first :: rest) policy).length =
      1 + (first :: rest).length +
        (headerInfos (getObjectKeys first) policy).length +
        (first :: rest).length *
          (headerInfos (getObjectKeys first) policy).length := by
  rw [getCells_cons]
  simp only [List.length_cons, List.length_append, List.length_map, List.enum_length,
    columnPlan_length]
  rw [length_flatMap_const _ _ (headerInfos (getObjectKeys first) policy).length
    (fun a _ => by simp)]
  simp [List.enum_length]
  omega

theorem mergeProps_nil (base : Props) : mergeProps base [] = base := by
  unfold mergeProps
  simp
  exact List.append_nil base

/-- Characterization of `createDataCell` written as one record, uniformly in the optional
custom spec: the template is the custom template defaulting to the plain
editable `TextCell`, and the props are the computed defaults with the
custom props merged over them field-by-field. -/
theorem createDataCell_eq (value : JVal) (rowIdx : Nat) (colIdx : Int)
    (customCell : Option CustomCell) :
    createDataCell value rowIdx colIdx customCell =
      { rowIndex := rowIdx
        colIndex := colIdx
        Template := (customCell.bind fun c => c.template).getD .TextCell
        props := mergeProps
          [("text", .str (stringOrEmpty value)), ("nonEditable", .bool false)]
          ((customCell.bind fun c => c.props).getD [])
        rowSpan := customCell.bind fun c => c.rowSpan
        colSpan := customCell.bind fun c => c.colSpan
        isFocusable := customCell.bind fun c => c.isFocusable
        isSelectable := customCell.bind fun c => c.isSelectable } := by
  cases customCell with
  | none => simp [createDataCell, createTextCell, mergeProps_nil]
  | some c => rfl

theorem infos_keys_nodup (keys : List String) (policy : Option Policy)
    (hnd : keys.Nodup) :
    ((headerInfos keys policy).map fun info => info.key).Nodup := by
  rw [headerInfos_eq_from]
  exact List.Nodup.sublist (headerInfosFrom_keys_sublist policy 0 keys) hnd

theorem mem_infos_of_mem_plan (infos : List HeaderInfo) (info : HeaderInfo)
    (pos : Int) (h : (info, pos) ∈ columnPlan infos) : info ∈ infos := by
  have := List.mem_map_of_mem Prod.fst h
  rw [columnPlan_map_fst] at this
  exact this

/-- The data cell `getCells` emits for row `i` and a planned column. -/
theorem dataCell_mem (first : Row) (rest : List Row) (policy : Option Policy)
    (hnd : (getObjectKeys first).Nodup)
    (i : Nat) (row : Row) (hrow : (first :: rest).get? i = some row)
    (info : HeaderInfo) (pos : Int)
    (hmem : (info, pos) ∈ columnPlan (headerInfos (getObjectKeys first) policy)) :
    createDataCell (getValue row info.key) (i + 1) pos info.customCell
      ∈ getCells (first :: rest) policy := by
  have hlook : List.lookup info.key
      (positionsMap (headerInfos (getObjectKeys first) policy)) = some pos :=
    lookup_positionsMap _ info pos (infos_keys_nodup _ policy hnd) hmem
  rw [getCells_cons]
  refine List.mem_cons_of_mem _ ?_
  rw [List.mem_append]
  right
  rw [List.mem_flatMap]
  refine ⟨(i, row), mem_enum_of_get? _ i row hrow, ?_⟩
  rw [List.mem_map]
  refine ⟨info, mem_infos_of_mem_plan _ info pos hmem, ?_⟩
  rw [hlook]
  rfl

theorem processHeaderInfo_policy_congr (k : String) (i : Nat) (f g : Policy)
    (h : f k 0 (i + 1) = g k 0 (i + 1)) :
    processHeaderInfo k i (some f) = processHeaderInfo k i (some g) := by
  simp only [processHeaderInfo]
  rw [h]

theorem processHeaderInfo_hidden (k : String) (i : Nat) (f : Policy)
    (h : f k 0 (i + 1) = .hnull) : processHeaderInfo k i (some f) = none := by
  simp only [processHeaderInfo]
  rw [h]

theorem lookup_append (k : String) (l1 l2 : List (String × Int)) :
    List.lookup k (l1 ++ l2) =
      match List.lookup k l1 with
      | some v => some v
      | none => List.lookup k l2 := by
  induction l1 with
  | nil => simp
  | cons p rest ih =>
    rcases p with ⟨a, b⟩
    cases hka : (k == a) with
    | true => simp [List.lookup_cons, hka]
    | false => simpa [List.lookup_cons, hka] using ih

theorem lookup_map_snd (k : String) (h : Int → Int) :
    ∀ l : List (String × Int),
      List.lookup k (l.map fun p => (p.1, h p.2)) = (List.lookup k l).map h := by
  intro l
  induction l with
  | nil => simp
  | cons p rest ih =>
    rcases p with ⟨a, b⟩
    cases hka : (k == a) with
    | true => simp [List.lookup_cons, hka]
    | false => simpa [List.lookup_cons, hka] using ih

/-! ### Claims -/

/-- Claim C1: for every non-empty row sequence, every non-hidden column at
absolute column index `pos` and every row at 0-based position `i`, the
output contains a data cell at coordinate `(i+1, pos)`; its value (the
`text` prop before custom overrides) is the stringification of the row's
value at the column's field name, empty when that value is falsy or the
key is absent; its template is the plain editable `TextCell` when the
column has no custom spec and the spec's template (defaulting to
`TextCell`) when it does; and its props are the computed defaults merged
with the custom spec's props field-by-field, custom fields overriding
individually. -/
theorem c1_data_cell_contract (first : Row) (rest : List Row) (policy : Option Policy)
    (hnd : (getObjectKeys first).Nodup)
    (i : Nat) (row : Row) (hrow : (first :: rest).get? i = some row)
    (info : HeaderInfo) (pos : Int)
    (hmem : (info, pos) ∈ columnPlan (headerInfos (getObjectKeys first) policy)) :
    createDataCell (getValue row info.key) (i + 1) pos info.customCell
        ∈ getCells (first :: rest) policy ∧
    createDataCell (getValue row info.key) (i + 1) pos info.customCell =
      { rowIndex := i + 1
        colIndex := pos
        Template := (info.customCell.bind fun c => c.template).getD .TextCell
        props := mergeProps
          [("text", .str (if truthy (getValue row info.key) then
              jsToString (getValue row info.key) else "")),
           ("nonEditable", .bool false)]
          ((info.customCell.bind fun c => c.props).getD [])
        rowSpan := info.customCell.bind fun c => c.rowSpan
        colSpan := info.customCell.bind fun c => c.colSpan
        isFocusable := info.customCell.bind fun c => c.isFocusable
        isSelectable := info.customCell.bind fun c => c.isSelectable } := by
  refine ⟨dataCell_mem first rest policy hnd i row hrow info pos hmem, ?_⟩
  rw [createDataCell_eq]
  rfl

def c1row1 : Row := [("id", .str "x1"), ("name", .str "John"), ("age", .num 0)]

def c1row2 : Row := [("id", .str "x2"), ("name", .str "Jane")]

def c1spec : CustomCell :=
  { title := some "Name"
    template := some .NonEditableCell
    props := some [("nonEditable", .bool true), ("extra", .str "X")]
    rowSpan := some 2 }

def c1policy : Policy := fun k _ _ =>
  if k = "name" then .hcustom c1spec else .hstr "Age"

def c1nameInfo : HeaderInfo := customHeaderInfo "name" 0 c1spec

def c1ageInfo : HeaderInfo :=
  { key := "age", cell := some (createHeaderCell "Age"), title := "Age",
    customCell := none }

theorem c1_witness :
    createDataCell (getValue c1row2 c1nameInfo.key) 2 1 c1nameInfo.customCell
        ∈ getCells [c1row1, c1row2] (some c1policy) ∧
    createDataCell (getValue c1row1 c1ageInfo.key) 1 2 c1ageInfo.customCell
        ∈ getCells [c1row1, c1row2] (some c1policy) :=
  ⟨(c1_data_cell_contract c1row1 [c1row2] (some c1policy) (by decide) 1 c1row2 rfl
      c1nameInfo 1 (by decide)).1,
   (c1_data_cell_contract c1row1 [c1row2] (some c1policy) (by decide) 0 c1row1 rfl
      c1ageInfo 2 (by decide)).1⟩

/-- Claim C10: for every column whose header decision is a structured
custom spec `c`, every data cell of that column, in every row, carries the
spec's `rowSpan`, `colSpan`, `isFocusable` and `isSelectable` values. -/
theorem c10_custom_flags_on_data_cells (first : Row) (rest : List Row)
    (policy : Option Policy) (hnd : (getObjectKeys first).Nodup)
    (i : Nat) (row : Row) (hrow : (first :: rest).get? i = some row)
    (info : HeaderInfo) (pos : Int)
    (hmem : (info, pos) ∈ columnPlan (headerInfos (getObjectKeys first) policy))
    (c : CustomCell) (hc : info.customCell = some c) :
    createDataCell (getValue row info.key) (i + 1) pos info.customCell
        ∈ getCells (first :: rest) policy ∧
    (createDataCell (getValue row info.key) (i + 1) pos info.customCell).rowSpan
        = c.rowSpan ∧
    (createDataCell (getValue row info.key) (i + 1) pos info.customCell).colSpan
        = c.colSpan ∧
    (createDataCell (getValue row info.key) (i + 1) pos info.customCell).isFocusable
        = c.isFocusable ∧
    (createDataCell (getValue row info.key) (i + 1) pos info.customCell).isSelectable
        = c.isSelectable := by
  refine ⟨dataCell_mem first rest policy hnd i row hrow info pos hmem, ?_, ?_, ?_, ?_⟩
  all_goals rw [hc]
  all_goals rfl

def c10spec : CustomCell :=
  { title := some "City", colSpan := some 2, rowSpan := some 3,
    isFocusable := some false, isSelectable := some true }

def c10policy : Policy := fun k _ _ =>
  if k = "city" then .hcustom c10spec else .hstr k

def c10row : Row := [("city", .str "NY"), ("age", .num 28)]

def c10info : HeaderInfo := customHeaderInfo "city" 0 c10spec

theorem c10_witness :
    (createDataCell (getValue c10row c10info.key) 1 1 c10info.customCell).colSpan
        = some 2 ∧
    (createDataCell (getValue c10row c10info.key) 1 1 c10info.customCell).rowSpan
        = some 3 ∧
    createDataCell (getValue c10row c10info.key) 1 1 c10info.customCell
        ∈ getCells [c10row] (some c10policy) :=
  ⟨(c10_custom_flags_on_data_cells c10row [] (some c10policy) (by decide) 0 c10row rfl
      c10info 1 (by decide) c10spec rfl).2.2.1,
   (c10_custom_flags_on_data_cells c10row [] (some c10policy) (by decide) 0 c10row rfl
      c10info 1 (by decide) c10spec rfl).2.1,
   (c10_custom_flags_on_data_cells c10row [] (some c10policy) (by decide) 0 c10row rfl
      c10info 1 (by decide) c10spec rfl).1⟩

/-- Claim C5: for an empty row sequence the output cell list is exactly the
empty list, for any policy; this is the sole short-circuit branch and not
an error. -/
theorem c5_empty_rows (policy : Option Policy) : getCells [] policy = [] := rfl

/-- Claim C6 (code bug evidence): a header policy that returns `undefined`
(an unrecognized shape; e.g. a callback with a missing return branch) makes
header resolution throw a TypeError at the `result.template` property
access, instead of treating the column as a default column named by the
field, because the code only compares the result against `null`. -/
theorem c6_undefined_policy_result_crashes :
    processHeaderInfoRT "age" 0 (fun _ _ _ => PolicyRet.rundef)
      = Except.error "TypeError" := rfl

def c8data : List Row :=
  [[("name", .str "John")], [("name", .str "Jane")], [("name", .str "Sam")]]

/-- Claim C8 (code bug evidence): the component passes the grid exactly the
cell list and the four sticky counts — no cell-change callback — and the
data cell of row ordinal 2 (grid row index 3) carries only the `text` and
`nonEditable` props, so no edit can reach the row-store's update
operation: the field-array operations are destructured but never called. -/
theorem c8_no_edit_wiring :
    (spreadsheetRender { data := c8data }).grid =
      { cells := getCells c8data none
        stickyTopRows := 1
        stickyBottomRows := 0
        stickyLeftColumns := 1
        stickyRightColumns := 0 } ∧
    ((getCells c8data none).filter fun cell =>
        cell.rowIndex == 3 && cell.colIndex == 1).map (fun cell => cell.props) =
      [[("text", .str "Sam"), ("nonEditable", .bool false)]] :=
  ⟨rfl, by decide⟩

/-- Claim C7 (counterexample): with every layout option omitted the
component renders `stickyLeftColumns = 1`, not the claimed default 0. -/
theorem c7_counterexample :
    (spreadsheetRender { data := [] }).grid.stickyLeftColumns = 1 ∧
    (spreadsheetRender { data := [] }).grid.stickyLeftColumns ≠ 0 := by
  refine ⟨rfl, ?_⟩
  decide

/-- Claim C7 (amended): each layout option is passed through verbatim to
the renderer, with defaults `height="400px"`, `width="100%"`,
`stickyTopRows=1`, `stickyLeftColumns=1` and 0 for `stickyBottomRows` and
`stickyRightColumns`. -/
theorem c7_layout_passthrough (p : SpreadsheetProps) :
    (p.height = none → (spreadsheetRender p).containerHeight = "400px") ∧
    (∀ v, p.height = some v → (spreadsheetRender p).containerHeight = v) ∧
    (p.width = none → (spreadsheetRender p).containerWidth = "100%") ∧
    (∀ v, p.width = some v → (spreadsheetRender p).containerWidth = v) ∧
    (p.stickyTopRows = none → (spreadsheetRender p).grid.stickyTopRows = 1) ∧
    (∀ n, p.stickyTopRows = some n → (spreadsheetRender p).grid.stickyTopRows = n) ∧
    (p.stickyBottomRows = none → (spreadsheetRender p).grid.stickyBottomRows = 0) ∧
    (∀ n, p.stickyBottomRows = some n →
      (spreadsheetRender p).grid.stickyBottomRows = n) ∧
    (p.stickyLeftColumns = none → (spreadsheetRender p).grid.stickyLeftColumns = 1) ∧
    (∀ n, p.stickyLeftColumns = some n →
      (spreadsheetRender p).grid.stickyLeftColumns = n) ∧
    (p.stickyRightColumns = none →
      (spreadsheetRender p).grid.stickyRightColumns = 0) ∧
    (∀ n, p.stickyRightColumns = some n →
      (spreadsheetRender p).grid.stickyRightColumns = n) ∧
    (spreadsheetRender p).grid.cells = getCells p.data p.columnHeaderTitle := by
  refine ⟨fun h => ?_, fun v h => ?_, fun h => ?_, fun v h => ?_, fun h => ?_,
    fun n h => ?_, fun h => ?_, fun n h => ?_, fun h => ?_, fun n h => ?_,
    fun h => ?_, fun n h => ?_, rfl⟩
  all_goals simp [spreadsheetRender, h]

theorem c7_witness :
    (spreadsheetRender { data := [] }).containerHeight = "400px" ∧
    (spreadsheetRender { data := [] }).grid.stickyTopRows = 1 ∧
    (spreadsheetRender { data := [] }).grid.stickyBottomRows = 0 ∧
    (spreadsheetRender { data := [] }).grid.stickyRightColumns = 0 ∧
    (spreadsheetRender
      { data := [], height := some "9em", width := some "50%",
        stickyTopRows := some 4, stickyBottomRows := some 5,
        stickyLeftColumns := some 6, stickyRightColumns := some 7 }).grid.stickyLeftColumns
      = 6 :=
  ⟨(c7_layout_passthrough { data := [] }).1 rfl,
   (c7_layout_passthrough { data := [] }).2.2.2.2.1 rfl,
   (c7_layout_passthrough { data := [] }).2.2.2.2.2.2.1 rfl,
   (c7_layout_passthrough { data := [] }).2.2.2.2.2.2.2.2.2.2.1 rfl,
   (c7_layout_passthrough
      { data := [], height := some "9em", width := some "50%",
        stickyTopRows := some 4, stickyBottomRows := some 5,
        stickyLeftColumns := some 6,
        stickyRightColumns := some 7 }).2.2.2.2.2.2.2.2.2.1 6 rfl⟩

/-- Claim C4: for N rows whose first row has K displayable keys (the
injected `id` key excluded), with no hidden column and no colSpan
specified, the output has exactly `1 + N + K + N*K` cells: corner header,
N row numbers, K headers and N×K data cells. -/
theorem c4_cell_count (first : Row) (rest : List Row) (policy : Option Policy)
    (hvis : ∀ (j : Nat) (k : String), (getObjectKeys first).get? j = some k →
      processHeaderInfo k j policy ≠ none)
    (hspan : ∀ info ∈ headerInfos (getObjectKeys first) policy, info.colSpan = none) :
    (getCells (first :: rest) policy).length =
      1 + (first :: rest).length + (getObjectKeys first).length +
        (first :: rest).length * (getObjectKeys first).length := by
  rw [getCells_length]
  have hlen : (headerInfos (getObjectKeys first) policy).length =
      (getObjectKeys first).length := by
    rw [headerInfos_eq_from]
    exact headerInfosFrom_length_of_total policy 0 (getObjectKeys first)
      fun i k hk => by simpa using hvis i k hk
  rw [hlen]

def c4row : Row :=
  [("id", .str "f0"), ("name", .str "John"), ("age", .num 28)]

theorem c4_witness : (getCells [c4row, c4row] none).length = 1 + 2 + 2 + 2 * 2 := by
  simpa using c4_cell_count c4row [c4row] none
    (fun j k hk => by simp [processHeaderInfo]) (by decide)

/-- Claim C9: the header policy is consulted once per discovered field, at
arguments `(field, 0, j+1)` where `j` is the field's 0-based position among
the first row's keys after excluding `id`; the whole output depends on the
policy only through its values at those argument triples (so earlier hidden
columns or colSpans cannot change them), and the consulted column index can
differ from the column's final absolute index: hiding the column at
consultation index 1 leaves the column consulted at index 2 (its title
below records the consulted index) at final absolute index 1. -/
theorem c9_policy_consultation (data : List Row) (f g : Policy)
    (h : ∀ (j : Nat) (k : String), (getObjectKeys (data.headD [])).get? j = some k →
      f k 0 (j + 1) = g k 0 (j + 1)) :
    getCells data (some f) = getCells data (some g) ∧
    ((columnPlan (headerInfos ["a", "b"] (some fun _ _ colIdx =>
        if colIdx = 1 then HeaderResult.hnull
        else HeaderResult.hstr (toString colIdx)))).map
      fun ip => (ip.1.title, ip.2)) = [("2", 1)] := by
  constructor
  · cases data with
    | nil => rfl
    | cons first rest =>
      have hinfos : headerInfos (getObjectKeys first) (some f) =
          headerInfos (getObjectKeys first) (some g) := by
        rw [headerInfos_eq_from, headerInfos_eq_from]
        refine headerInfosFrom_congr (some f) (some g) 0 (getObjectKeys first)
          fun i k hk => ?_
        exact processHeaderInfo_policy_congr k (0 + i) f g (by simpa using h i k hk)
      rw [getCells_cons, getCells_cons, hinfos]
  · decide

def c9data : List Row := [[("a", .num 1), ("b", .num 2)]]

def c9f : Policy := fun k r _ => if r = 0 then .hstr k else .hnull

def c9g : Policy := fun k _ c => if c = 0 then .hnull else .hstr k

theorem c9_witness : getCells c9data (some c9f) = getCells c9data (some c9g) :=
  (c9_policy_consultation c9data c9f c9g fun j k _ => by simp [c9f, c9g]).1

theorem columnPlan_get? (infos : List HeaderInfo) (m : Nat) :
    (columnPlan infos).get? m =
      (infos.get? m).map fun info => (info, 1 + sumSpans (infos.take m)) :=
  columnPlanGo_get? infos 1 m

theorem sumSpans_append (xs ys : List HeaderInfo) :
    sumSpans (xs ++ ys) = sumSpans xs + sumSpans ys := by
  simp [sumSpans]

def c3negPolicy : Policy := fun _ _ _ => .hcustom { colSpan := some (-1) }

/-- Claim C3 (counterexample): with a policy specifying `colSpan = -1` the
code computes column plan positions `[1, 0]`, so the second column's
absolute index is not greater than the first's: the indices do not
strictly increase. -/
theorem c3_counterexample :
    ((columnPlan (headerInfos ["a", "b"] (some c3negPolicy))).map fun ip => ip.2)
      = [1, 0] ∧ ¬ ((1 : Int) < (0 : Int)) := by
  refine ⟨by decide, by decide⟩

/-- Claim C3 (amended: provided no column's effective span width
`colSpan || 1` is zero or negative — the code lets a negative `colSpan`
decrease the running index): the first planned column's absolute index is
1 (index 0 is the row-number column), each next column's index is the
previous index plus the previous column's span width (`colSpan`,
defaulting to 1 when unspecified, with 0 also falling back to 1), and the
indices strictly increase; in particular `colSpan = 2` puts the next
column 2 further. -/
theorem c3_column_plan_invariant (keys : List String) (policy : Option Policy)
    (hpos : ∀ info ∈ headerInfos keys policy, 0 < jsOrNum info.colSpan 1) :
    (∀ (info : HeaderInfo) (pos : Int),
      (columnPlan (headerInfos keys policy)).get? 0 = some (info, pos) → pos = 1) ∧
    (∀ (m : Nat) (info : HeaderInfo) (pos : Int) (info2 : HeaderInfo) (pos2 : Int),
      (columnPlan (headerInfos keys policy)).get? m = some (info, pos) →
      (columnPlan (headerInfos keys policy)).get? (m + 1) = some (info2, pos2) →
      pos2 = pos + jsOrNum info.colSpan 1 ∧ pos < pos2) := by
  constructor
  · intro info pos h
    rw [columnPlan_get?] at h
    rcases Option.map_eq_some'.mp h with ⟨i, hi, heq⟩
    have : (1 : Int) + sumSpans ((headerInfos keys policy).take 0) = pos :=
      congrArg Prod.snd heq
    simpa [sumSpans] using this.symm
  · intro m info pos info2 pos2 h1 h2
    rw [columnPlan_get?] at h1 h2
    rcases Option.map_eq_some'.mp h1 with ⟨i1, hi1, heq1⟩
    rcases Option.map_eq_some'.mp h2 with ⟨i2, hi2, heq2⟩
    have hinfo : i1 = info := congrArg Prod.fst heq1
    have hpos1 : 1 + sumSpans ((headerInfos keys policy).take m) = pos :=
      congrArg Prod.snd heq1
    have hpos2 : 1 + sumSpans ((headerInfos keys policy).take (m + 1)) = pos2 :=
      congrArg Prod.snd heq2
    have hi1' : (headerInfos keys policy).get? m = some info := by
      rw [hi1, hinfo]
    have htake : (headerInfos keys policy).take (m + 1) =
        (headerInfos keys policy).take m ++ [info] := by
      rw [List.take_succ, ← List.get?_eq_getElem?, hi1']
      rfl
    have hstep : pos2 = pos + infoSpan info := by
      rw [← hpos1, ← hpos2, htake, sumSpans_append]
      simp [sumSpans]
      ring
    refine ⟨hstep, ?_⟩
    have hmem : info ∈ headerInfos keys policy := List.get?_mem hi1'
    have := hpos info hmem
    rw [hstep]
    have : 0 < infoSpan info := this
    omega

def c3spec : CustomCell := { title := some "City", colSpan := some 2 }

def c3policy : Policy := fun k _ _ =>
  if k = "city" then .hcustom c3spec else .hstr k

theorem c3_witness :
    (3 : Int) = 1 + jsOrNum (customHeaderInfo "city" 0 c3spec).colSpan 1 ∧
    (1 : Int) < 3 :=
  (c3_column_plan_invariant ["city", "age"] (some c3policy) (by decide)).2 0
    (customHeaderInfo "city" 0 c3spec) 1
    { key := "age", cell := some (createHeaderCell "age"), title := "age",
      customCell := none } 3 (by decide) (by decide)

theorem columnPlanGo_keys (cur : Int) (infos : List HeaderInfo) :
    ((columnPlanGo cur infos).map fun ip => (ip.1.key, ip.2)).map Prod.fst =
      infos.map fun info => info.key := by
  rw [List.map_map]
  rw [show (Prod.fst ∘ fun ip : HeaderInfo × Int => (ip.1.key, ip.2)) =
        (fun info : HeaderInfo => info.key) ∘ Prod.fst from rfl]
  rw [← List.map_map, columnPlanGo_map_fst]

theorem columnPlan_append (xs ys : List HeaderInfo) :
    columnPlan (xs ++ ys) =
      columnPlanGo 1 xs ++ columnPlanGo (1 + sumSpans xs) ys :=
  columnPlanGo_append 1 xs ys

theorem columnPlan_middle (xs : List HeaderInfo) (e : HeaderInfo)
    (ys : List HeaderInfo) :
    columnPlan (xs ++ e :: ys) =
      columnPlanGo 1 xs ++ (e, 1 + sumSpans xs) ::
        columnPlanGo (1 + sumSpans xs + infoSpan e) ys := by
  rw [columnPlan_append]
  rfl

/-- Claim C2: when the policy answers `null` for the field `F` at position
`j` (the decision is Hidden) while a comparison policy `g`, identical at
every other consultation, answers with a visible decision `e`, exactly one
column is removed: no surviving column carries `F`, the header-cell and
overall cell counts drop by `1` and by `1 + N`, columns before `F` keep
their absolute index, and every column after `F` has its absolute index
shifted down by `F`'s reserved span width `infoSpan e` (which is
`colSpan || 1`, i.e. `1` by default). -/
theorem c2_hidden_column (first : Row) (rest : List Row) (f g : Policy)
    (j : Nat) (F : String)
    (hnd : (getObjectKeys first).Nodup)
    (hF : (getObjectKeys first).get? j = some F)
    (hhide : f F 0 (j + 1) = HeaderResult.hnull)
    (hagree : ∀ (k : String) (a b : Nat), ¬(k = F ∧ a = 0 ∧ b = j + 1) →
      f k a b = g k a b)
    (e : HeaderInfo) (he : processHeaderInfo F j (some g) = some e) :
    (∀ info ∈ headerInfos (getObjectKeys first) (some f), info.key ≠ F) ∧
    (headerInfos (getObjectKeys first) (some f)).length + 1 =
      (headerInfos (getObjectKeys first) (some g)).length ∧
    (getCells (first :: rest) (some f)).length + 1 + (first :: rest).length =
      (getCells (first :: rest) (some g)).length ∧
    (∀ k ∈ (getObjectKeys first).take j,
      List.lookup k (positionsMap (headerInfos (getObjectKeys first) (some f))) =
        List.lookup k (positionsMap (headerInfos (getObjectKeys first) (some g)))) ∧
    (∀ k ∈ (getObjectKeys first).drop (j + 1), ∀ q : Int,
      List.lookup k (positionsMap (headerInfos (getObjectKeys first) (some g)))
        = some q →
      List.lookup k (positionsMap (headerInfos (getObjectKeys first) (some f)))
        = some (q - infoSpan e)) := by
  obtain ⟨hjlen, hgetF⟩ := List.get?_eq_some.mp hF
  have hF2 : (getObjectKeys first)[j] = F := by
    rw [← hgetF]
    exact (List.get_eq_getElem (getObjectKeys first) ⟨j, hjlen⟩).symm
  have htd : getObjectKeys first =
      (getObjectKeys first).take j ++ F :: (getObjectKeys first).drop (j + 1) := by
    conv_lhs => rw [← List.take_append_drop j (getObjectKeys first)]
    rw [List.drop_eq_getElem_cons hjlen, hF2]
  have hmidf : processHeaderInfo F j (some f) = none :=
    processHeaderInfo_hidden F j f hhide
  have htakelen : ((getObjectKeys first).take j).length = j := by
    rw [List.length_take]
    exact min_eq_left hjlen.le
  have hinfosF : headerInfos (getObjectKeys first) (some f) =
      headerInfosFrom (some f) 0 ((getObjectKeys first).take j) ++
      headerInfosFrom (some f) (j + 1) ((getObjectKeys first).drop (j + 1)) := by
    rw [headerInfos_eq_from]
    conv_lhs => rw [htd]
    rw [headerInfosFrom_append, htakelen]
    simp only [Nat.zero_add, headerInfosFrom, hmidf]
  have hinfosG : headerInfos (getObjectKeys first) (some g) =
      headerInfosFrom (some g) 0 ((getObjectKeys first).take j) ++
      e :: headerInfosFrom (some g) (j + 1) ((getObjectKeys first).drop (j + 1)) := by
    rw [headerInfos_eq_from]
    conv_lhs => rw [htd]
    rw [headerInfosFrom_append, htakelen]
    simp only [Nat.zero_add, headerInfosFrom, he]
  have hA : headerInfosFrom (some f) 0 ((getObjectKeys first).take j) =
      headerInfosFrom (some g) 0 ((getObjectKeys first).take j) := by
    refine headerInfosFrom_congr (some f) (some g) 0 _ fun i k hk => ?_
    obtain ⟨hilen, -⟩ := List.get?_eq_some.mp hk
    rw [htakelen] at hilen
    refine processHeaderInfo_policy_congr k (0 + i) f g ?_
    refine hagree k 0 (0 + i + 1) ?_
    rintro ⟨-, -, hb⟩
    omega
  have hB : headerInfosFrom (some f) (j + 1) ((getObjectKeys first).drop (j + 1)) =
      headerInfosFrom (some g) (j + 1) ((getObjectKeys first).drop (j + 1)) := by
    refine headerInfosFrom_congr (some f) (some g) (j + 1) _ fun i k _ => ?_
    refine processHeaderInfo_policy_congr k (j + 1 + i) f g ?_
    refine hagree k 0 (j + 1 + i + 1) ?_
    rintro ⟨-, -, hb⟩
    omega
  have hinfosF2 : headerInfos (getObjectKeys first) (some f) =
      headerInfosFrom (some g) 0 ((getObjectKeys first).take j) ++
      headerInfosFrom (some g) (j + 1) ((getObjectKeys first).drop (j + 1)) := by
    rw [hinfosF, hA, hB]
  have heKey : e.key = F := processHeaderInfo_key F j (some g) e he
  have hndMid : F ∉ ((getObjectKeys first).take j ++
      (getObjectKeys first).drop (j + 1)) ∧
      (((getObjectKeys first).take j ++ (getObjectKeys first).drop (j + 1))).Nodup := by
    have hnd2 := hnd
    rw [htd] at hnd2
    have h2 := List.nodup_middle.mp hnd2
    exact ⟨(List.nodup_cons.mp h2).1, (List.nodup_cons.mp h2).2⟩
  have hdisj : ∀ k, k ∈ (getObjectKeys first).take j →
      k ∉ (getObjectKeys first).drop (j + 1) := by
    intro k hk1 hk2
    exact List.disjoint_of_nodup_append hndMid.2 hk1 hk2
  have hFtake : F ∉ (getObjectKeys first).take j := fun hc =>
    hndMid.1 (List.mem_append.mpr (Or.inl hc))
  have hFdrop : F ∉ (getObjectKeys first).drop (j + 1) := fun hc =>
    hndMid.1 (List.mem_append.mpr (Or.inr hc))
  have hsubA := headerInfosFrom_keys_sublist (some g) 0 ((getObjectKeys first).take j)
  have hsubB := headerInfosFrom_keys_sublist (some g) (j + 1)
    ((getObjectKeys first).drop (j + 1))
  have hndF : ((headerInfos (getObjectKeys first) (some f)).map
      fun i => i.key).Nodup := infos_keys_nodup _ _ hnd
  have hndG : ((headerInfos (getObjectKeys first) (some g)).map
      fun i => i.key).Nodup := infos_keys_nodup _ _ hnd
  refine ⟨?_, ?_, ?_, ?_, ?_⟩
  · intro info hinfo heq
    rw [hinfosF2] at hinfo
    rcases List.mem_append.mp hinfo with hA2 | hB2
    · exact hFtake
        (heq ▸ hsubA.subset (List.mem_map_of_mem (fun i => i.key) hA2))
    · exact hFdrop
        (heq ▸ hsubB.subset (List.mem_map_of_mem (fun i => i.key) hB2))
  · rw [hinfosF2, hinfosG]
    simp only [List.length_append, List.length_cons]
    omega
  · have hlen2 : (headerInfosFrom (some g) 0 ((getObjectKeys first).take j) ++
        e :: headerInfosFrom (some g) (j + 1)
          ((getObjectKeys first).drop (j + 1))).length =
        (headerInfosFrom (some g) 0 ((getObjectKeys first).take j) ++
          headerInfosFrom (some g) (j + 1)
            ((getObjectKeys first).drop (j + 1))).length + 1 := by
      simp only [List.length_append, List.length_cons]
      omega
    rw [getCells_length, getCells_length, hinfosF2, hinfosG, hlen2, Nat.mul_succ]
    omega
  · intro k hk
    have hkF : k ≠ F := fun hkF => hFtake (hkF ▸ hk)
    rw [positionsMap_eq _ hndF, positionsMap_eq _ hndG, hinfosF2, hinfosG,
      columnPlan_append, columnPlan_middle, List.map_append, List.map_append,
      List.map_cons]
    cases hp : List.lookup k
        ((columnPlanGo 1 (headerInfosFrom (some g) 0
          ((getObjectKeys first).take j))).map fun ip => (ip.1.key, ip.2)) with
    | some v => rw [lookup_append, lookup_append, hp]
    | none =>
      rw [lookup_append, lookup_append, hp]
      have hkB : k ∉ (headerInfosFrom (some g) (j + 1)
          ((getObjectKeys first).drop (j + 1))).map fun i => i.key := by
        intro hc
        exact hdisj k hk (hsubB.subset hc)
      have hbeq : (k == e.key) = false := by
        apply beq_eq_false_iff_ne.mpr
        rw [heKey]
        exact hkF
      simp only [List.lookup_cons, hbeq]
      rw [lookup_eq_none_of_not_mem k _ (by rw [columnPlanGo_keys]; exact hkB),
        lookup_eq_none_of_not_mem k _ (by rw [columnPlanGo_keys]; exact hkB)]
  · intro k hk q hq
    have hkF : k ≠ F := fun hkF => hFdrop (hkF ▸ hk)
    have hkTake : k ∉ (getObjectKeys first).take j := fun hc => hdisj k hc hk
    have hkA : k ∉ (headerInfosFrom (some g) 0
        ((getObjectKeys first).take j)).map fun i => i.key := by
      intro hc
      exact hkTake (hsubA.subset hc)
    have hpnone : List.lookup k
        ((columnPlanGo 1 (headerInfosFrom (some g) 0
          ((getObjectKeys first).take j))).map fun ip => (ip.1.key, ip.2)) = none :=
      lookup_eq_none_of_not_mem k _ (by rw [columnPlanGo_keys]; exact hkA)
    have hbeq : (k == e.key) = false := by
      apply beq_eq_false_iff_ne.mpr
      rw [heKey]
      exact hkF
    rw [positionsMap_eq _ hndG, hinfosG, columnPlan_middle, List.map_append,
      List.map_cons, lookup_append, hpnone] at hq
    simp only [List.lookup_cons, hbeq] at hq
    have hshift : columnPlanGo
        (1 + sumSpans (headerInfosFrom (some g) 0 ((getObjectKeys first).take j))
          + infoSpan e)
        (headerInfosFrom (some g) (j + 1) ((getObjectKeys first).drop (j + 1))) =
        (columnPlanGo
          (1 + sumSpans (headerInfosFrom (some g) 0 ((getObjectKeys first).take j)))
          (headerInfosFrom (some g) (j + 1)
            ((getObjectKeys first).drop (j + 1)))).map
          fun ip => (ip.1, ip.2 + infoSpan e) :=
      columnPlanGo_shift _ (infoSpan e) _
    rw [hshift, List.map_map] at hq
    rw [show ((fun ip : HeaderInfo × Int => (ip.1.key, ip.2)) ∘
          fun ip : HeaderInfo × Int => (ip.1, ip.2 + infoSpan e)) =
        fun ip : HeaderInfo × Int => ((ip.1.key, ip.2).1,
          (ip.1.key, ip.2).2 + infoSpan e) from rfl] at hq
    rw [show (fun ip : HeaderInfo × Int => ((ip.1.key, ip.2).1,
          (ip.1.key, ip.2).2 + infoSpan e)) =
        (fun p : String × Int => (p.1, p.2 + infoSpan e)) ∘
          fun ip : HeaderInfo × Int => (ip.1.key, ip.2) from rfl] at hq
    rw [← List.map_map, lookup_map_snd k (fun x => x + infoSpan e)] at hq
    rcases Option.map_eq_some'.mp hq with ⟨v, hv, hvq⟩
    rw [positionsMap_eq _ hndF, hinfosF2, columnPlan_append, List.map_append,
      lookup_append, hpnone, hv]
    have : v = q - infoSpan e := by omega
    rw [this]

def c2row : Row := [("a", .str "1"), ("b", .str "2"), ("c", .str "3")]

def c2f : Policy := fun k _ _ => if k = "b" then .hnull else .hstr k

def c2g : Policy := fun k a b =>
  if k = "b" ∧ a = 0 ∧ b = 2 then .hcustom { colSpan := some 2 } else c2f k a b

def c2e : HeaderInfo := customHeaderInfo "b" 1 { colSpan := some 2 }

theorem c2_witness :
    List.lookup "c" (positionsMap (headerInfos (getObjectKeys c2row) (some c2f)))
      = some (4 - infoSpan c2e) ∧
    List.lookup "a" (positionsMap (headerInfos (getObjectKeys c2row) (some c2f)))
      = List.lookup "a" (positionsMap (headerInfos (getObjectKeys c2row) (some c2g))) ∧
    (getCells [c2row, c2row] (some c2f)).length + 1 + 2 =
      (getCells [c2row, c2row] (some c2g)).length := by
  have H := c2_hidden_column c2row [c2row] c2f c2g 1 "b" (by decide) rfl (by decide)
    (fun k a b h => by
      simp only [c2g]
      rw [if_neg (by simpa using h)]) c2e (by decide)
  exact ⟨H.2.2.2.2 "c" (by decide) 4 (by decide), H.2.2.2.1 "a" (by decide), H.2.2.1⟩

end Spreadsheet
